import Mathlib

set_option maxRecDepth 8000

/-!
Verification of the outbound request reliability layer of the
firstpromoter-mcp repository (`src/api.ts`): the sliding-window rate
limiter, the bounded retry loop with exponential backoff, and the
error classification helpers.

The TypeScript source is shallowly embedded as executable Lean
definitions:

* JavaScript JSON values are modelled by the inductive `Json`.
  A raw HTTP body is a `RawBody`: the raw text together with the
  result of `JSON.parse` on it (`none` when parsing throws).  Numbers
  are carried as their canonical post-parse JavaScript rendering, so
  that `JSON.stringify` and string coercion can reproduce them.
* Timestamps are integers (milliseconds).  `Date.now()` is modelled by
  explicit time passing: computation takes no time, `setTimeout(ms)`
  advances the clock by exactly `max ms 0`.
* The HTTP transport (`fetch`) is an arbitrary function from the
  attempt index to an `AttemptOutcome` (a network-level exception or a
  response with status, `Retry-After` header and body).  Quantifying
  over all transports subsumes quantifying over all `RequestSpec`s,
  since the URL, method and body only affect behaviour through the
  transport.
* The retry loop `for (attempt = 0; attempt <= MAX_RETRIES; attempt++)`
  is embedded as structural recursion on the number of remaining
  iterations; the fuel-exhausted case is exactly the
  `Unexpected: retry loop exited...` throw after the loop.
-/

-- ============================================================================
-- JavaScript JSON values
-- ============================================================================

/-- A JavaScript JSON value, as produced by `JSON.parse`.  `num` carries the
canonical JavaScript rendering of the number; `obj` carries the field list
with unique keys (duplicate keys are already resolved by `JSON.parse`). -/
inductive Json where
  | null
  | bool (b : Bool)
  | num (rendering : String)
  | str (s : String)
  | arr (elems : List Json)
  | obj (fields : List (String × Json))

/-- The raw text of an HTTP body together with the result of `JSON.parse`
on it (`none` when `JSON.parse` throws). -/
structure RawBody where
  raw : String
  parsed : Option Json

mutual

/-- JavaScript string coercion of an array element as performed by
`Array.prototype.join`: `null` and `undefined` become the empty string,
nested arrays are joined with `,`, objects render as `[object Object]`. -/
def joinElemString : Json → String
  | .null => ""
  | .bool b => if b then "true" else "false"
  | .num r => r
  | .str s => s
  | .arr a => String.intercalate "," (joinElemStringList a)
  | .obj _ => "[object Object]"

/-- `joinElemString` mapped over a list of elements. -/
def joinElemStringList : List Json → List String
  | [] => []
  | j :: js => joinElemString j :: joinElemStringList js

end

/-- JSON string escaping as performed by `JSON.stringify`. -/
def jsonEscapeChar (c : Char) : String :=
  if c = '"' then "\\\""
  else if c = '\\' then "\\\\"
  else if c = '\n' then "\\n"
  else if c = '\t' then "\\t"
  else if c = '\r' then "\\r"
  else if c = '\x08' then "\\b"
  else if c = '\x0c' then "\\f"
  else if c.toNat < 32 then
    "\\u00" ++ String.mk [Nat.digitChar (c.toNat / 16), Nat.digitChar (c.toNat % 16)]
  else String.singleton c

/-- JSON string literal rendering as performed by `JSON.stringify`. -/
def jsonQuote (s : String) : String :=
  "\"" ++ String.join (s.toList.map jsonEscapeChar) ++ "\""

mutual

/-- Compact rendering of a JSON value: `JSON.stringify(json)` with no
spacing argument. -/
def stringifyJson : Json → String
  | .null => "null"
  | .bool b => if b then "true" else "false"
  | .num r => r
  | .str s => jsonQuote s
  | .arr a => "[" ++ String.intercalate "," (stringifyJsonList a) ++ "]"
  | .obj fs => "\x7b" ++ String.intercalate "," (stringifyJsonFields fs) ++ "\x7d"

/-- `stringifyJson` mapped over array elements. -/
def stringifyJsonList : List Json → List String
  | [] => []
  | j :: js => stringifyJson j :: stringifyJsonList js

/-- `stringifyJson` mapped over object fields, rendered as `"key":value`. -/
def stringifyJsonFields : List (String × Json) → List String
  | [] => []
  | (k, v) :: fs => (jsonQuote k ++ ":" ++ stringifyJson v) :: stringifyJsonFields fs

end

/-- JavaScript property access `json.key` on a parsed JSON value other than
`null`: objects look the key up; primitives (which box) and arrays have none
of the accessed properties, giving `undefined` (`none`). -/
def getField (j : Json) (key : String) : Option Json :=
  match j with
  | .obj fs => fs.lookup key
  | _ => none

-- ============================================================================
-- Error detail extraction and message building (src/api.ts)
-- ============================================================================

/-- `parseErrorDetail` from `src/api.ts`: parse the API error body to
extract a human-readable detail string.  `body.raw.take 200` models
`raw.slice(0, 200)`.  When the body parses to JSON `null`, the property
access `json.error` throws a `TypeError`, which the surrounding
`try ... catch` turns into the truncated raw text. -/
def parseErrorDetail (body : RawBody) : String :=
  match body.parsed with
  | none => body.raw.take 200
  | some .null => body.raw.take 200
  | some j =>
    match getField j "error" with
    | some (.str s) => s
    | _ =>
      match getField j "message" with
      | some (.str s) => s
      | _ =>
        match getField j "errors" with
        | some (.arr a) => String.intercalate "; " (joinElemStringList a)
        | _ => (stringifyJson j).take 200

/-- The suffix appended to classified messages:
`detail ? ` — ${detail}` : ''` (the empty string is falsy). -/
def detailSuffix (body : RawBody) : String :=
  if parseErrorDetail body = "" then "" else " — " ++ parseErrorDetail body

/-- `buildErrorMessage` from `src/api.ts`: build an actionable error
message based on the HTTP status code. -/
def buildErrorMessage (status : Nat) (body : RawBody) : String :=
  if status = 401 then
    "Authentication failed — check your FP_BEARER_TOKEN and FP_ACCOUNT_ID"
  else if status = 403 then
    "Access denied — your API token does not have permission" ++ detailSuffix body
  else if status = 404 then
    "Not found — the requested resource does not exist" ++ detailSuffix body
  else if status = 422 then
    "Validation error — the request data is invalid" ++ detailSuffix body
  else if status = 429 then
    "Rate limit exceeded — too many requests to FirstPromoter API"
  else if 500 ≤ status ∧ status ≤ 504 then
    "FirstPromoter server error (" ++ toString status ++
      ") — service may be temporarily unavailable" ++ detailSuffix body
  else
    "FirstPromoter API error (" ++ toString status ++ ")" ++ detailSuffix body

-- ============================================================================
-- Retry configuration (src/api.ts)
-- ============================================================================

/-- `MAX_RETRIES` from `src/api.ts`. -/
def MAX_RETRIES : Nat := 3

/-- `BASE_DELAY_MS` from `src/api.ts` (1s, 2s, 4s). -/
def BASE_DELAY_MS : Int := 1000

/-- A character skipped by `parseInt` before reading digits (JavaScript
whitespace). -/
def isJsSpace (c : Char) : Bool :=
  c = ' ' || c = '\t' || c = '\n' || c = '\r' || c = '\x0b' || c = '\x0c' || c = '\xa0'

/-- The value of the longest leading run of decimal digits; `none` when the
run is empty (in which case `parseInt` yields `NaN`). -/
def leadingDigits (cs : List Char) : Option Nat :=
  match cs.takeWhile Char.isDigit with
  | [] => none
  | ds => some (ds.foldl (fun n c => n * 10 + (c.toNat - 48)) 0)

/-- JavaScript `parseInt(s, 10)`: skip leading whitespace, read an optional
sign and then the longest run of decimal digits; `none` models `NaN`.
(JavaScript loses precision beyond 2^53; the claims never exercise that.) -/
def parseIntJS (s : String) : Option Int :=
  match s.toList.dropWhile isJsSpace with
  | '-' :: rest => (leadingDigits rest).map (fun n => -(n : Int))
  | '+' :: rest => (leadingDigits rest).map (fun n => (n : Int))
  | cs => (leadingDigits cs).map (fun n => (n : Int))

/-- `getRetryDelay` from `src/api.ts`: use the `Retry-After` header if
present (a `null` header or the falsy empty string skips the branch),
otherwise exponential backoff.  `retryAfter = none` models
`headers.get` returning `null`. -/
def getRetryDelay (attempt : Nat) (retryAfter : Option String) : Int :=
  match retryAfter with
  | some s =>
    if s = "" then BASE_DELAY_MS * 2 ^ attempt
    else
      match parseIntJS s with
      | some seconds => seconds * 1000
      | none => BASE_DELAY_MS * 2 ^ attempt
  | none => BASE_DELAY_MS * 2 ^ attempt

/-- `isRetryable` from `src/api.ts`: status 429 or any status in
[500, 504]. -/
def isRetryable (status : Nat) : Bool :=
  status == 429 || (500 ≤ status && status ≤ 504)

/-- `Response.ok` of the fetch API: status in [200, 299]. -/
def responseOk (status : Nat) : Bool :=
  200 ≤ status && status ≤ 299

-- ============================================================================
-- Rate limiter (src/api.ts) — sliding window, 400 req/min with 380 buffer
-- ============================================================================

/-- `RATE_WINDOW_MS` from `src/api.ts` (60 seconds). -/
def RATE_WINDOW_MS : Int := 60000

/-- `RATE_LIMIT` from `src/api.ts` (safe buffer below 400/min). -/
def RATE_LIMIT : Nat := 380

/-- The pruning loop of `waitForRateLimit`:
`while (requestTimestamps.length > 0 && requestTimestamps[0] < now - RATE_WINDOW_MS) shift()`. -/
def pruneTimestamps (now : Int) : List Int → List Int
  | [] => []
  | t :: rest =>
    if t < now - RATE_WINDOW_MS then pruneTimestamps now rest else t :: rest

/-- Result of one `waitForRateLimit()` call: the updated
`requestTimestamps` queue and the timestamp pushed (which is also the
clock value when the call returns). -/
structure RateResult where
  state : List Int
  pushed : Int

/-- `waitForRateLimit` from `src/api.ts`, with the clock made explicit:
prune expired timestamps, sleep `requestTimestamps[0] + RATE_WINDOW_MS - now + 50`
milliseconds when the window is full, then push `Date.now()`.
`List.headI` is `requestTimestamps[0]` (the guard guarantees the queue is
nonempty there); `max waitMs 0` models `setTimeout` clamping negative
delays to zero. -/
def waitForRateLimit (now : Int) (ts : List Int) : RateResult :=
  let pruned := pruneTimestamps now ts
  if RATE_LIMIT ≤ pruned.length then
    let waitMs := pruned.headI + RATE_WINDOW_MS - now + 50
    let pushed := now + max waitMs 0
    ⟨pruned ++ [pushed], pushed⟩
  else
    ⟨pruned ++ [now], now⟩

/-- Back-to-back `waitForRateLimit()` calls: starting from queue `ts` at
time `now`, one call per entry of `gaps`, the `i`-th call starting `gaps[i]`
milliseconds after the previous call returned.  Produces the list of all
admitted (pushed) timestamps in order. -/
def runRateCalls : List Int → Int → List Int → List Int
  | _, _, [] => []
  | ts, now, g :: gs =>
    let r := waitForRateLimit (now + g) ts
    r.pushed :: runRateCalls r.state r.pushed gs

-- ============================================================================
-- Request executor (src/api.ts) — dispatch + retry
-- ============================================================================

/-- Outcome of one physical `fetch` attempt: a network-level exception
(`fetch` threw, no response) or an HTTP response with status,
`Retry-After` header value and body. -/
inductive AttemptOutcome where
  | netError (msg : String)
  | response (status : Nat) (retryAfter : Option String) (body : RawBody)

/-- How `callFirstPromoterAPI` settles: a fulfilled promise with the
parsed JSON body, a thrown `FirstPromoterAPIError` (message, status code,
detail), a thrown plain `Error` (credentials missing, network retries
exhausted, or the unreachable post-loop throw), or the raw `SyntaxError`
from `response.json()` on an unparseable 2xx body. -/
inductive CallResult where
  | success (v : Json)
  | apiError (message : String) (statusCode : Nat) (detail : String)
  | genericError (msg : String)
  | jsonParseError

/-- The process-wide mutable state threaded through a call: the
`requestTimestamps` queue and the current clock. -/
structure LoopState where
  rateTs : List Int
  now : Int

/-- Observable trace of one `callFirstPromoterAPI` call: its settled
result, the number of physical fetch attempts, the number of rate-limiter
admissions (one `waitForRateLimit()` per loop iteration), the backoff
delays slept before each retry in order, and the final shared state. -/
structure CallTrace where
  result : CallResult
  attempts : Nat
  admissions : Nat
  delays : List Int
  final : LoopState

/-- The retry loop of `callFirstPromoterAPI`
(`for (attempt = 0; attempt <= MAX_RETRIES; attempt++)`), embedded as
structural recursion on the number of remaining iterations
(`remaining = MAX_RETRIES + 1 - attempt` at every call site): fuel 0 is
exactly the `throw new Error('Unexpected: ...')` after the loop.  Each
iteration admits through the rate limiter, performs the attempt, and on a
retryable failure with budget left sleeps the computed delay and
continues. -/
def retryLoop (transport : Nat → AttemptOutcome) :
    Nat → Nat → LoopState → CallTrace
  | 0, _, s =>
    { result := .genericError "Unexpected: retry loop exited without returning or throwing",
      attempts := 0, admissions := 0, delays := [], final := s }
  | remaining + 1, attempt, s =>
    let r := waitForRateLimit s.now s.rateTs
    let s1 : LoopState := ⟨r.state, r.pushed⟩
    match transport attempt with
    | .netError msg =>
      if attempt < MAX_RETRIES then
        let delay := BASE_DELAY_MS * 2 ^ attempt
        let t := retryLoop transport remaining (attempt + 1)
          ⟨s1.rateTs, s1.now + max delay 0⟩
        { t with attempts := t.attempts + 1, admissions := t.admissions + 1,
                 delays := delay :: t.delays }
      else
        { result := .genericError ("Network error calling FirstPromoter API: " ++ msg),
          attempts := 1, admissions := 1, delays := [], final := s1 }
    | .response status retryAfter body =>
      if responseOk status then
        match body.parsed with
        | some v =>
          { result := .success v, attempts := 1, admissions := 1, delays := [], final := s1 }
        | none =>
          { result := .jsonParseError, attempts := 1, admissions := 1, delays := [], final := s1 }
      else if isRetryable status ∧ attempt < MAX_RETRIES then
        let delay := getRetryDelay attempt retryAfter
        let t := retryLoop transport remaining (attempt + 1)
          ⟨s1.rateTs, s1.now + max delay 0⟩
        { t with attempts := t.attempts + 1, admissions := t.admissions + 1,
                 delays := delay :: t.delays }
      else
        { result := .apiError (buildErrorMessage status body) status (parseErrorDetail body),
          attempts := 1, admissions := 1, delays := [], final := s1 }

/-- The credentials-missing message thrown before any network activity. -/
def credentialsMessage : String :=
  "FirstPromoter credentials not configured. " ++
    "Please set FP_BEARER_TOKEN and FP_ACCOUNT_ID environment variables."

/-- `callFirstPromoterAPI` from `src/api.ts`: check credentials
(`!FP_BEARER_TOKEN || !FP_ACCOUNT_ID`, the empty string being falsy), then
run the retry loop from attempt 0.  The URL construction from endpoint and
query parameters only affects behaviour through the transport, which is
abstract here. -/
def callFirstPromoterAPI (bearerToken accountId : String)
    (transport : Nat → AttemptOutcome) (s : LoopState) : CallTrace :=
  if bearerToken = "" ∨ accountId = "" then
    { result := .genericError credentialsMessage,
      attempts := 0, admissions := 0, delays := [], final := s }
  else
    retryLoop transport (MAX_RETRIES + 1) 0 s

-- ============================================================================
-- Rate limiter: the sliding-window bound (claim C2)
-- ============================================================================

/-- `t` lies in the trailing window `[T - RATE_WINDOW_MS, T]`. -/
def inWindow (T t : Int) : Bool :=
  decide (T - RATE_WINDOW_MS ≤ t) && decide (t ≤ T)

/-- Entries at least `RATE_LIMIT` positions apart differ by more than the
window width, so any `RATE_LIMIT + 1` entries span more than one window. -/
def SpacedOut (l : List Int) : Prop :=
  ∀ i j, i + RATE_LIMIT ≤ j → j < l.length →
    l.getD i 0 + RATE_WINDOW_MS < l.getD j 0

lemma spacedOut_nil : SpacedOut [] := by
  intro i j _ hj
  simp at hj

lemma spacedOut_tail {x : Int} {xs : List Int} (h : SpacedOut (x :: xs)) :
    SpacedOut xs := by
  intro i j hij hj
  have h2 := h (i + 1) (j + 1) (by omega) (by simp; omega)
  simpa [List.getD_cons_succ] using h2

lemma filter_length_le_of_false_from (p : Int → Bool) :
    ∀ (l : List Int) (n : Nat),
      (∀ j, n ≤ j → j < l.length → p (l.getD j 0) = false) →
      (l.filter p).length ≤ n := by
  intro l
  induction l with
  | nil => intro n _; simp
  | cons x xs ih =>
    intro n h
    have hxs : ∀ m, n ≤ m + 1 → (xs.filter p).length ≤ m := by
      intro m hm
      apply ih m
      intro j hjm hj
      have := h (j + 1) (by omega) (by simp; omega)
      simpa [List.getD_cons_succ] using this
    cases n with
    | zero =>
      have hx : p x = false := by
        have := h 0 (le_refl 0) (by simp)
        simpa [List.getD_cons_zero] using this
      have h0 : (xs.filter p).length ≤ 0 := hxs 0 (by omega)
      rw [List.filter_cons, if_neg (by simp [hx])]
      exact h0
    | succ m =>
      have h0 : (xs.filter p).length ≤ m := hxs m (by omega)
      by_cases hx : p x = true
      · rw [List.filter_cons, if_pos hx, List.length_cons]
        omega
      · rw [List.filter_cons, if_neg hx]
        omega

/-- A spaced-out list has at most `RATE_LIMIT` entries in any window. -/
lemma window_count_of_spacedOut :
    ∀ {l : List Int}, SpacedOut l → ∀ T,
      (l.filter (fun t => inWindow T t)).length ≤ RATE_LIMIT := by
  intro l
  induction l with
  | nil => intro _ T; simp
  | cons x xs ih =>
    intro hs T
    have hR : 1 ≤ RATE_LIMIT := by decide
    by_cases hx : inWindow T x = true
    · have hxw : T - RATE_WINDOW_MS ≤ x ∧ x ≤ T := by
        simpa [inWindow] using hx
      have hout : ∀ j, RATE_LIMIT - 1 ≤ j → j < xs.length →
          inWindow T (xs.getD j 0) = false := by
        intro j hjl hj
        have hsp := hs 0 (j + 1) (by omega) (by simp; omega)
        rw [List.getD_cons_zero, List.getD_cons_succ] at hsp
        have hgt : ¬(xs.getD j 0 ≤ T) := by omega
        have hB : decide (xs.getD j 0 ≤ T) = false := decide_eq_false hgt
        unfold inWindow
        rw [hB, Bool.and_false]
      have hcnt := filter_length_le_of_false_from
        (fun t => inWindow T t) xs (RATE_LIMIT - 1) hout
      rw [List.filter_cons, if_pos hx, List.length_cons]
      omega
    · have h0 := ih (spacedOut_tail hs) T
      rw [List.filter_cons, if_neg hx]
      exact h0

/-- The reachability invariant of the rate limiter.  `hist` is the full
trace of admitted timestamps so far, `st` the current
`requestTimestamps` queue (a suffix of `hist`, the rest having been
pruned as expired), `now` the clock.  When a wait was just performed the
queue holds `RATE_LIMIT + 1` entries whose head already expired with the
50 ms margin. -/
structure RateInv (hist st : List Int) (now : Int) : Prop where
  spaced : SpacedOut hist
  split : ∃ pre, hist = pre ++ st ∧ ∀ x ∈ pre, x < now - RATE_WINDOW_MS
  len_le : st.length ≤ RATE_LIMIT + 1
  full_head : st.length = RATE_LIMIT + 1 → st.headI + (RATE_WINDOW_MS + 50) ≤ now

lemma prune_split (now : Int) :
    ∀ st : List Int, ∃ dropped,
      st = dropped ++ pruneTimestamps now st ∧
      ∀ x ∈ dropped, x < now - RATE_WINDOW_MS := by
  intro st
  induction st with
  | nil => exact ⟨[], rfl, by simp⟩
  | cons t rest ih =>
    by_cases h : t < now - RATE_WINDOW_MS
    · obtain ⟨d, hd, hlt⟩ := ih
      refine ⟨t :: d, ?_, ?_⟩
      · simp only [pruneTimestamps, if_pos h, List.cons_append]
        exact congrArg (t :: ·) hd
      · intro x hx
        rcases List.mem_cons.mp hx with rfl | hx
        · exact h
        · exact hlt x hx
    · exact ⟨[], by simp [pruneTimestamps, if_neg h], by simp⟩

lemma prune_head_ge (now : Int) :
    ∀ st : List Int, pruneTimestamps now st ≠ [] →
      now - RATE_WINDOW_MS ≤ (pruneTimestamps now st).headI := by
  intro st
  induction st with
  | nil => intro h; simp [pruneTimestamps] at h
  | cons t rest ih =>
    intro h
    by_cases hc : t < now - RATE_WINDOW_MS
    · rw [pruneTimestamps, if_pos hc] at h ⊢
      exact ih h
    · rw [pruneTimestamps, if_neg hc]
      simp [List.headI]
      omega

lemma getD_zero_headI {l : List Int} (h : l ≠ []) : l.getD 0 0 = l.headI := by
  cases l with
  | nil => exact absurd rfl h
  | cons a t => rfl

lemma headI_append {l l2 : List Int} (h : l ≠ []) : (l ++ l2).headI = l.headI := by
  cases l with
  | nil => exact absurd rfl h
  | cons a t => rfl

lemma waitForRateLimit_full (now : Int) (st : List Int)
    (h : RATE_LIMIT ≤ (pruneTimestamps now st).length) :
    waitForRateLimit now st =
      ⟨pruneTimestamps now st ++
        [(pruneTimestamps now st).headI + RATE_WINDOW_MS + 50],
       (pruneTimestamps now st).headI + RATE_WINDOW_MS + 50⟩ := by
  have hne : pruneTimestamps now st ≠ [] := by
    intro h0
    rw [h0] at h
    simp [RATE_LIMIT] at h
  have hhead := prune_head_ge now st hne
  have hmax : now + max ((pruneTimestamps now st).headI + RATE_WINDOW_MS - now + 50) 0
      = (pruneTimestamps now st).headI + RATE_WINDOW_MS + 50 := by
    rw [max_eq_left (by omega)]
    ring
  simp only [waitForRateLimit]
  rw [if_pos h, hmax]

lemma waitForRateLimit_free (now : Int) (st : List Int)
    (h : ¬ RATE_LIMIT ≤ (pruneTimestamps now st).length) :
    waitForRateLimit now st = ⟨pruneTimestamps now st ++ [now], now⟩ := by
  simp only [waitForRateLimit]
  rw [if_neg h]

/-- Appending one admitted timestamp preserves spacing, provided the new
timestamp is more than a window beyond every entry `RATE_LIMIT` or more
positions from the end. -/
lemma spacedOut_snoc {hist : List Int} {p : Int} (hsp : SpacedOut hist)
    (hnew : ∀ i, i + RATE_LIMIT ≤ hist.length →
      hist.getD i 0 + RATE_WINDOW_MS < p) :
    SpacedOut (hist ++ [p]) := by
  have hR : 1 ≤ RATE_LIMIT := by decide
  intro i j hij hj
  rw [List.length_append, List.length_cons, List.length_nil] at hj
  rcases Nat.lt_or_ge j hist.length with hjl | hjr
  · rw [List.getD_append _ _ _ i (by omega), List.getD_append _ _ _ j hjl]
    exact hsp i j hij hjl
  · have hje : j = hist.length := by omega
    rw [List.getD_append _ _ _ i (by omega),
        List.getD_append_right hist [p] 0 j (by omega)]
    have h0 : j - hist.length = 0 := by omega
    rw [h0, List.getD_cons_zero]
    exact hnew i (by omega)

/-- One back-to-back `waitForRateLimit()` call preserves the reachability
invariant, and the clock never goes backwards. -/
lemma rateStep (hist st : List Int) (now now2 : Int)
    (hmono : now ≤ now2) (inv : RateInv hist st now) :
    RateInv (hist ++ [(waitForRateLimit now2 st).pushed])
      (waitForRateLimit now2 st).state (waitForRateLimit now2 st).pushed ∧
    now2 ≤ (waitForRateLimit now2 st).pushed := by
  obtain ⟨pre, hsplit, hpre⟩ := inv.split
  obtain ⟨dropped, hdrop, hdlt⟩ := prune_split now2 st
  have hhist : hist = (pre ++ dropped) ++ pruneTimestamps now2 st := by
    rw [List.append_assoc, ← hdrop]
    exact hsplit
  have hpre2 : ∀ x ∈ pre ++ dropped, x < now2 - RATE_WINDOW_MS := by
    intro x hx
    rcases List.mem_append.mp hx with hx | hx
    · have := hpre x hx
      omega
    · exact hdlt x hx
  have hplen : (pruneTimestamps now2 st).length ≤ st.length := by
    have hl := congrArg List.length hdrop
    rw [List.length_append] at hl
    omega
  have hlen2 : hist.length =
      (pre ++ dropped).length + (pruneTimestamps now2 st).length := by
    rw [hhist, List.length_append]
  by_cases hfull : RATE_LIMIT ≤ (pruneTimestamps now2 st).length
  · -- full window: wait until the oldest entry leaves, then push
    have hne : pruneTimestamps now2 st ≠ [] := by
      intro h0
      rw [h0] at hfull
      simp [RATE_LIMIT] at hfull
    have hhead := prune_head_ge now2 st hne
    have hub : (pruneTimestamps now2 st).length ≤ RATE_LIMIT := by
      rcases Nat.lt_or_ge st.length (RATE_LIMIT + 1) with hlt | hge
      · omega
      · have heq : st.length = RATE_LIMIT + 1 := le_antisymm inv.len_le hge
        have hfh := inv.full_head heq
        cases st with
        | nil =>
          rw [List.length_nil] at heq
          omega
        | cons t rest =>
          have ht : t < now2 - RATE_WINDOW_MS := by
            simp only [List.headI] at hfh
            omega
          have hpr : pruneTimestamps now2 (t :: rest) = pruneTimestamps now2 rest := by
            rw [pruneTimestamps, if_pos ht]
          obtain ⟨d, hd, _⟩ := prune_split now2 rest
          have hlend := congrArg List.length hd
          rw [List.length_append] at hlend
          rw [List.length_cons] at heq
          rw [hpr]
          omega
    have hL : (pruneTimestamps now2 st).length = RATE_LIMIT := le_antisymm hub hfull
    have hw := waitForRateLimit_full now2 st hfull
    rw [hw]
    dsimp only
    have hp2 : now2 ≤ (pruneTimestamps now2 st).headI + RATE_WINDOW_MS + 50 := by
      omega
    refine ⟨⟨?_, ?_, ?_, ?_⟩, hp2⟩
    · -- spacing
      apply spacedOut_snoc inv.spaced
      intro i hi
      rcases Nat.lt_or_ge i (pre ++ dropped).length with hilt | hige
      · have hgd : hist.getD i 0 = (pre ++ dropped).getD i 0 := by
          rw [hhist]
          exact List.getD_append _ _ _ i hilt
        have hmem : (pre ++ dropped).getD i 0 ∈ pre ++ dropped := by
          rw [List.getD_eq_getElem _ _ hilt]
          exact List.getElem_mem hilt
        have := hpre2 _ hmem
        rw [hgd]
        omega
      · have hie : i = (pre ++ dropped).length := by omega
        have hgd : hist.getD i 0 = (pruneTimestamps now2 st).headI := by
          rw [hhist, List.getD_append_right _ _ _ i (by omega), hie,
            Nat.sub_self, getD_zero_headI hne]
        rw [hgd]
        omega
    · -- split
      refine ⟨pre ++ dropped, ?_, ?_⟩
      · rw [hhist, List.append_assoc, List.append_assoc]
      · intro x hx
        have := hpre2 x hx
        omega
    · -- length bound
      rw [List.length_append, List.length_cons, List.length_nil, hL]
    · -- full head margin
      intro _
      rw [headI_append hne]
      omega
  · -- free window: push immediately
    have hw := waitForRateLimit_free now2 st hfull
    rw [hw]
    dsimp only
    refine ⟨⟨?_, ?_, ?_, ?_⟩, le_refl now2⟩
    · apply spacedOut_snoc inv.spaced
      intro i hi
      have hilt : i < (pre ++ dropped).length := by omega
      have hgd : hist.getD i 0 = (pre ++ dropped).getD i 0 := by
        rw [hhist]
        exact List.getD_append _ _ _ i hilt
      have hmem : (pre ++ dropped).getD i 0 ∈ pre ++ dropped := by
        rw [List.getD_eq_getElem _ _ hilt]
        exact List.getElem_mem hilt
      have := hpre2 _ hmem
      rw [hgd]
      omega
    · refine ⟨pre ++ dropped, ?_, ?_⟩
      · rw [hhist, List.append_assoc, List.append_assoc]
      · intro x hx
        have := hpre2 x hx
        omega
    · rw [List.length_append, List.length_cons, List.length_nil]
      omega
    · intro hlen
      rw [List.length_append, List.length_cons, List.length_nil] at hlen
      omega

/-- Chaining: a back-to-back sequence of calls keeps the full admitted
trace spaced out. -/
lemma runRateCalls_spaced :
    ∀ (gaps : List Int) (hist st : List Int) (now : Int),
      RateInv hist st now → (∀ g ∈ gaps, 0 ≤ g) →
      SpacedOut (hist ++ runRateCalls st now gaps) := by
  intro gaps
  induction gaps with
  | nil =>
    intro hist st now inv _
    simpa [runRateCalls] using inv.spaced
  | cons g gs ih =>
    intro hist st now inv hg
    have hg0 : (0 : Int) ≤ g := hg g (by simp)
    obtain ⟨inv2, _⟩ := rateStep hist st now (now + g) (by omega) inv
    have h2 := ih (hist ++ [(waitForRateLimit (now + g) st).pushed])
      (waitForRateLimit (now + g) st).state
      (waitForRateLimit (now + g) st).pushed
      inv2 (fun g2 hg2 => hg g2 (by simp [hg2]))
    rw [runRateCalls, List.append_cons]
    exact h2

lemma rateInv_init (t0 : Int) : RateInv [] [] t0 := by
  refine ⟨spacedOut_nil, ⟨[], rfl, by simp⟩, by simp, ?_⟩
  intro h
  rw [List.length_nil] at h
  omega

/-- Claim C2: for any back-to-back sequence of rate-limiter calls (each
starting a nonnegative gap after the previous one returned, from a fresh
process start), no trailing `RATE_WINDOW_MS` sliding window ever contains
more than `RATE_LIMIT` admitted timestamps.  Each call prunes entries
older than the window, waits `(oldest + RATE_WINDOW_MS) - now + 50`
milliseconds when the pruned queue is still at or above the ceiling, and
then records the current timestamp — see `waitForRateLimit`. -/
theorem rate_limiter_sliding_window_bound (t0 : Int) (gaps : List Int)
    (hg : ∀ g ∈ gaps, 0 ≤ g) (T : Int) :
    ((runRateCalls [] t0 gaps).filter (fun t => inWindow T t)).length ≤
      RATE_LIMIT := by
  have hs := runRateCalls_spaced gaps [] [] t0 (rateInv_init t0) hg
  rw [List.nil_append] at hs
  exact window_count_of_spacedOut hs T

/-- Witness for `rate_limiter_sliding_window_bound` at a concrete
back-to-back schedule. -/
theorem rate_limiter_sliding_window_bound_witness :
    (∀ g ∈ ([0, 0, 0, 0] : List Int), 0 ≤ g) ∧
    ((runRateCalls [] 1000 [0, 0, 0, 0]).filter
      (fun t => inWindow 1000 t)).length ≤ RATE_LIMIT :=
  ⟨by decide, rate_limiter_sliding_window_bound 1000 [0, 0, 0, 0] (by decide) 1000⟩

-- ============================================================================
-- Claim C6: error detail extraction versus the specified cascade
-- ============================================================================

/-- Spec cascade helper: the value of a field, when it is a string. -/
def strFieldValue : Option Json → Option String
  | some (.str s) => some s
  | _ => none

/-- Spec cascade helper: the elements of a field, joined with `"; "`,
when it is an array. -/
def errorsJoined : Option Json → Option String
  | some (.arr a) => some (String.intercalate "; " (joinElemStringList a))
  | _ => none

/-- The first recognised body shape, following the words of the spec: a
string field `error`, else a string field `message`, else an array field
`errors` joined with `"; "`. -/
def firstShapeDetail (j : Json) : Option String :=
  (strFieldValue (getField j "error")).orElse fun _ =>
    (strFieldValue (getField j "message")).orElse fun _ =>
      errorsJoined (getField j "errors")

/-- Claim C6 as stated: the detail is the `error` string field, else the
`message` string field, else the `errors` array joined with `"; "`, else a
compact JSON rendering truncated to 200 characters whenever the body
parses as JSON at all, else the raw text truncated to 200 characters. -/
def claimedDetailSpec (b : RawBody) : String :=
  match b.parsed with
  | none => b.raw.take 200
  | some j =>
    match firstShapeDetail j with
    | some s => s
    | none => (stringifyJson j).take 200

/-- Claim C6 as amended: identical to the stated cascade, except that a
body parsing to JSON `null` yields the raw text truncated to 200
characters (the property access on `null` throws and is caught by the
not-JSON fallback), not the compact rendering `"null"`. -/
def amendedDetailSpec (b : RawBody) : String :=
  match b.parsed with
  | none => b.raw.take 200
  | some .null => b.raw.take 200
  | some j =>
    match firstShapeDetail j with
    | some s => s
    | none => (stringifyJson j).take 200

lemma cascade3 (o3 : Option Json) (dflt : String) :
    (match o3 with
     | some (.arr a) => String.intercalate "; " (joinElemStringList a)
     | _ => dflt) =
    (match errorsJoined o3 with
     | some s => s
     | none => dflt) := by
  rcases o3 with _ | j3
  · rfl
  · cases j3 <;> rfl

lemma cascade2 (o2 o3 : Option Json) (dflt : String) :
    (match o2 with
     | some (.str s) => s
     | _ =>
       match o3 with
       | some (.arr a) => String.intercalate "; " (joinElemStringList a)
       | _ => dflt) =
    (match (strFieldValue o2).orElse (fun _ => errorsJoined o3) with
     | some s => s
     | none => dflt) := by
  rcases o2 with _ | j2
  · exact cascade3 o3 dflt
  · cases j2 with
    | str s => rfl
    | null => exact cascade3 o3 dflt
    | bool v => exact cascade3 o3 dflt
    | num r => exact cascade3 o3 dflt
    | arr a => exact cascade3 o3 dflt
    | obj fs => exact cascade3 o3 dflt

lemma cascade1 (o1 o2 o3 : Option Json) (dflt : String) :
    (match o1 with
     | some (.str s) => s
     | _ =>
       match o2 with
       | some (.str s) => s
       | _ =>
         match o3 with
         | some (.arr a) => String.intercalate "; " (joinElemStringList a)
         | _ => dflt) =
    (match (strFieldValue o1).orElse
        (fun _ => (strFieldValue o2).orElse (fun _ => errorsJoined o3)) with
     | some s => s
     | none => dflt) := by
  rcases o1 with _ | j1
  · exact cascade2 o2 o3 dflt
  · cases j1 with
    | str s => rfl
    | null => exact cascade2 o2 o3 dflt
    | bool v => exact cascade2 o2 o3 dflt
    | num r => exact cascade2 o2 o3 dflt
    | arr a => exact cascade2 o2 o3 dflt
    | obj fs => exact cascade2 o2 o3 dflt

/-- Claim C6 (counterexample): at the raw body `" null"` — which
`JSON.parse` accepts as JSON `null` — the code returns the raw text
`" null"` (the field access on `null` throws a `TypeError`, caught by the
fallback), while the claimed cascade returns the compact rendering
`"null"`. -/
theorem error_detail_null_body_cex :
    parseErrorDetail ⟨" null", some Json.null⟩ ≠
      claimedDetailSpec ⟨" null", some Json.null⟩ := by
  decide

/-- Claim C6 (amended): for every raw error body, the extracted detail is
the stated cascade, except that a body parsing to JSON `null` falls into
the raw-text branch. -/
theorem error_detail_extraction_amended (b : RawBody) :
    parseErrorDetail b = amendedDetailSpec b := by
  rcases b with ⟨raw, parsed⟩
  rcases parsed with _ | j
  · rfl
  · cases j with
    | null => rfl
    | bool v => rfl
    | num r => rfl
    | str s => rfl
    | arr a => rfl
    | obj fs =>
      exact cascade1 (fs.lookup "error") (fs.lookup "message") (fs.lookup "errors")
        ((stringifyJson (.obj fs)).take 200)

-- ============================================================================
-- Retry loop: helper notions and step lemmas
-- ============================================================================

/-- The delay the loop schedules before retrying after `o` at `attempt`:
network-level failures always use the exponential formula, HTTP failures
go through `getRetryDelay` (which honours `Retry-After`). -/
def scheduledDelay (o : AttemptOutcome) (attempt : Nat) : Int :=
  match o with
  | .netError _ => BASE_DELAY_MS * 2 ^ attempt
  | .response _ retryAfter _ => getRetryDelay attempt retryAfter

/-- An outcome the loop retries when budget remains: any network-level
failure, or a response whose status is retryable (429 or 500-504). -/
def retryableOutcome : AttemptOutcome → Bool
  | .netError _ => true
  | .response status _ _ => isRetryable status

lemma responseOk_false_of_retryable {status : Nat}
    (h : isRetryable status = true) : responseOk status = false := by
  simp only [isRetryable, Bool.or_eq_true, Bool.and_eq_true, beq_iff_eq,
    decide_eq_true_eq] at h
  simp only [responseOk, Bool.and_eq_false_iff, decide_eq_false_iff_not]
  omega

lemma network_msg_ne_unexpected (msg : String) :
    "Network error calling FirstPromoter API: " ++ msg ≠
      "Unexpected: retry loop exited without returning or throwing" := by
  intro hEq
  have h2 := congrArg String.data hEq
  rw [String.data_append] at h2
  have h3 := congrArg (fun l => l.take 1) h2
  simp only at h3
  rw [List.take_append_of_le_length (by decide)] at h3
  exact absurd h3 (by decide)

/-- A retryable outcome with budget left makes the loop recurse at the
next attempt from some state, adding one attempt, one admission, and the
scheduled delay. -/
lemma retryLoop_retry_step (tr : Nat → AttemptOutcome) (rem attempt : Nat)
    (s : LoopState) (hlt : attempt < MAX_RETRIES)
    (hro : retryableOutcome (tr attempt) = true) :
    ∃ s2,
      (retryLoop tr (rem + 1) attempt s).result =
        (retryLoop tr rem (attempt + 1) s2).result ∧
      (retryLoop tr (rem + 1) attempt s).attempts =
        (retryLoop tr rem (attempt + 1) s2).attempts + 1 ∧
      (retryLoop tr (rem + 1) attempt s).admissions =
        (retryLoop tr rem (attempt + 1) s2).admissions + 1 ∧
      (retryLoop tr (rem + 1) attempt s).delays =
        scheduledDelay (tr attempt) attempt ::
          (retryLoop tr rem (attempt + 1) s2).delays := by
  cases h : tr attempt with
  | netError msg =>
    refine ⟨⟨(waitForRateLimit s.now s.rateTs).state,
             (waitForRateLimit s.now s.rateTs).pushed +
               max (BASE_DELAY_MS * 2 ^ attempt) 0⟩, ?_, ?_, ?_, ?_⟩ <;>
      simp [retryLoop, h, hlt, scheduledDelay]
  | response status ra body =>
    have hr : isRetryable status = true := by
      rw [h] at hro
      exact hro
    have hok : responseOk status = false := responseOk_false_of_retryable hr
    refine ⟨⟨(waitForRateLimit s.now s.rateTs).state,
             (waitForRateLimit s.now s.rateTs).pushed +
               max (getRetryDelay attempt ra) 0⟩, ?_, ?_, ?_, ?_⟩ <;>
      simp [retryLoop, h, hok, hr, hlt, scheduledDelay]

/-- A 2xx response with a parseable body settles the loop with the parsed
JSON after a single further attempt. -/
lemma retryLoop_ok_success (tr : Nat → AttemptOutcome) (rem attempt : Nat)
    (s : LoopState) (status : Nat) (ra : Option String) (body : RawBody)
    (v : Json) (h : tr attempt = .response status ra body)
    (hok : responseOk status = true) (hv : body.parsed = some v) :
    (retryLoop tr (rem + 1) attempt s).result = .success v ∧
    (retryLoop tr (rem + 1) attempt s).attempts = 1 ∧
    (retryLoop tr (rem + 1) attempt s).admissions = 1 ∧
    (retryLoop tr (rem + 1) attempt s).delays = [] := by
  refine ⟨?_, ?_, ?_, ?_⟩ <;> simp [retryLoop, h, hok, hv]

/-- A 2xx response with an unparseable body settles the loop with the raw
JSON parse rejection after a single further attempt. -/
lemma retryLoop_ok_badjson (tr : Nat → AttemptOutcome) (rem attempt : Nat)
    (s : LoopState) (status : Nat) (ra : Option String) (body : RawBody)
    (h : tr attempt = .response status ra body)
    (hok : responseOk status = true) (hv : body.parsed = none) :
    (retryLoop tr (rem + 1) attempt s).result = .jsonParseError ∧
    (retryLoop tr (rem + 1) attempt s).attempts = 1 ∧
    (retryLoop tr (rem + 1) attempt s).admissions = 1 ∧
    (retryLoop tr (rem + 1) attempt s).delays = [] := by
  refine ⟨?_, ?_, ?_, ?_⟩ <;> simp [retryLoop, h, hok, hv]

/-- A non-2xx response that is non-retryable, or arrives with no budget
left, settles the loop with the classified error. -/
lemma retryLoop_terminal_api (tr : Nat → AttemptOutcome) (rem attempt : Nat)
    (s : LoopState) (status : Nat) (ra : Option String) (body : RawBody)
    (h : tr attempt = .response status ra body)
    (hok : responseOk status = false)
    (hstop : isRetryable status = false ∨ ¬ attempt < MAX_RETRIES) :
    (retryLoop tr (rem + 1) attempt s).result =
      .apiError (buildErrorMessage status body) status (parseErrorDetail body) ∧
    (retryLoop tr (rem + 1) attempt s).attempts = 1 ∧
    (retryLoop tr (rem + 1) attempt s).admissions = 1 ∧
    (retryLoop tr (rem + 1) attempt s).delays = [] := by
  have hcond : ¬ (isRetryable status = true ∧ attempt < MAX_RETRIES) := by
    rcases hstop with h1 | h1
    · intro hc
      rw [h1] at hc
      exact Bool.false_ne_true hc.1
    · intro hc
      exact h1 hc.2
  refine ⟨?_, ?_, ?_, ?_⟩ <;> simp [retryLoop, h, hok, hcond]

/-- A network-level failure with no budget left settles the loop with the
wrapped transport message. -/
lemma retryLoop_net_final (tr : Nat → AttemptOutcome) (rem attempt : Nat)
    (s : LoopState) (msg : String) (h : tr attempt = .netError msg)
    (hge : ¬ attempt < MAX_RETRIES) :
    (retryLoop tr (rem + 1) attempt s).result =
      .genericError ("Network error calling FirstPromoter API: " ++ msg) ∧
    (retryLoop tr (rem + 1) attempt s).attempts = 1 ∧
    (retryLoop tr (rem + 1) attempt s).admissions = 1 ∧
    (retryLoop tr (rem + 1) attempt s).delays = [] := by
  refine ⟨?_, ?_, ?_, ?_⟩ <;> simp [retryLoop, h, hge]

/-- How a loop started at attempt `a` can settle: the parsed JSON of some
reached 2xx response, the raw parse rejection of some reached 2xx response
with unparseable body, the classified error of some reached non-2xx
response (original status, table message, extracted detail), or — only
when the final attempt fails at the network level — the wrapped transport
message with no status. -/
def resultShape (tr : Nat → AttemptOutcome) (a : Nat) (r : CallResult) : Prop :=
  (∃ k status ra body v, a ≤ k ∧ k ≤ MAX_RETRIES ∧
    tr k = .response status ra body ∧ responseOk status = true ∧
    body.parsed = some v ∧ r = .success v) ∨
  (∃ k status ra body, a ≤ k ∧ k ≤ MAX_RETRIES ∧
    tr k = .response status ra body ∧ responseOk status = true ∧
    body.parsed = none ∧ r = .jsonParseError) ∨
  (∃ k status ra body, a ≤ k ∧ k ≤ MAX_RETRIES ∧
    tr k = .response status ra body ∧ responseOk status = false ∧
    r = .apiError (buildErrorMessage status body) status (parseErrorDetail body)) ∨
  (∃ msg, tr MAX_RETRIES = .netError msg ∧
    r = .genericError ("Network error calling FirstPromoter API: " ++ msg))

lemma resultShape_mono (tr : Nat → AttemptOutcome) {a b : Nat} (hab : a ≤ b)
    {r : CallResult} (h : resultShape tr b r) : resultShape tr a r := by
  rcases h with ⟨k, status, ra, body, v, h1, h2, h3⟩ |
    ⟨k, status, ra, body, h1, h2, h3⟩ |
    ⟨k, status, ra, body, h1, h2, h3⟩ | h4
  · exact Or.inl ⟨k, status, ra, body, v, by omega, h2, h3⟩
  · exact Or.inr (Or.inl ⟨k, status, ra, body, by omega, h2, h3⟩)
  · exact Or.inr (Or.inr (Or.inl ⟨k, status, ra, body, by omega, h2, h3⟩))
  · exact Or.inr (Or.inr (Or.inr h4))

/-- Master characterisation of the retry loop, for every reachable
entry (`rem + attempt = MAX_RETRIES + 1`, `attempt ≤ MAX_RETRIES`):
attempts exceed retries by one, one admission per attempt, the retry
budget bounds the retries, each retry delay is the scheduled one for that
attempt, the post-loop throw is unreachable, and the result has the
classified shape. -/
lemma retryLoop_master (tr : Nat → AttemptOutcome) :
    ∀ (rem attempt : Nat) (s : LoopState),
      rem + attempt = MAX_RETRIES + 1 → attempt ≤ MAX_RETRIES →
      (retryLoop tr rem attempt s).attempts =
        (retryLoop tr rem attempt s).delays.length + 1 ∧
      (retryLoop tr rem attempt s).admissions =
        (retryLoop tr rem attempt s).attempts ∧
      (retryLoop tr rem attempt s).delays.length < rem ∧
      (∀ k, k < (retryLoop tr rem attempt s).delays.length →
        (retryLoop tr rem attempt s).delays.getD k 0 =
          scheduledDelay (tr (attempt + k)) (attempt + k)) ∧
      (retryLoop tr rem attempt s).result ≠
        .genericError "Unexpected: retry loop exited without returning or throwing" ∧
      resultShape tr attempt (retryLoop tr rem attempt s).result := by
  intro rem
  induction rem with
  | zero =>
    intro attempt s h1 h2
    exfalso
    rw [MAX_RETRIES] at h1 h2
    omega
  | succ rem ih =>
    intro attempt s h1 h2
    by_cases hstop : retryableOutcome (tr attempt) = true ∧ attempt < MAX_RETRIES
    · -- a retry happens
      obtain ⟨s2, hres, hatt, hadm, hdel⟩ :=
        retryLoop_retry_step tr rem attempt s hstop.2 hstop.1
      obtain ⟨ih1, ih2, ih3, ih4, ih5, ih6⟩ :=
        ih (attempt + 1) s2 (by omega) (by omega)
      have hlen : (retryLoop tr (rem + 1) attempt s).delays.length =
          (retryLoop tr rem (attempt + 1) s2).delays.length + 1 := by
        rw [hdel, List.length_cons]
      refine ⟨by omega, by omega, by omega, ?_, ?_, ?_⟩
      · intro k hk
        rw [hdel]
        cases k with
        | zero =>
          rw [List.getD_cons_zero, Nat.add_zero]
        | succ k2 =>
          rw [List.getD_cons_succ]
          have hk2 : k2 < (retryLoop tr rem (attempt + 1) s2).delays.length := by
            omega
          have := ih4 k2 hk2
          rw [this]
          have he : attempt + 1 + k2 = attempt + (k2 + 1) := by omega
          rw [he]
      · rw [hres]
        exact ih5
      · rw [hres]
        exact resultShape_mono tr (by omega) ih6
    · -- the attempt settles the call
      cases h : tr attempt with
      | netError msg =>
        have hge : ¬ attempt < MAX_RETRIES := by
          intro hlt
          exact hstop ⟨by rw [h]; rfl, hlt⟩
        obtain ⟨hres, hatt, hadm, hdel⟩ :=
          retryLoop_net_final tr rem attempt s msg h hge
        refine ⟨?_, ?_, ?_, ?_, ?_, ?_⟩
        · rw [hatt, hdel]
          rfl
        · rw [hatt, hadm]
        · rw [hdel]
          simp
        · intro k hk
          rw [hdel] at hk
          simp at hk
        · rw [hres]
          intro heq
          have := CallResult.genericError.inj heq
          exact network_msg_ne_unexpected msg this
        · rw [hres]
          have hke : attempt = MAX_RETRIES := by omega
          exact Or.inr (Or.inr (Or.inr ⟨msg, by rw [← hke]; exact h, rfl⟩))
      | response status ra body =>
        by_cases hok : responseOk status = true
        · cases hv : body.parsed with
          | some v =>
            obtain ⟨hres, hatt, hadm, hdel⟩ :=
              retryLoop_ok_success tr rem attempt s status ra body v h hok hv
            refine ⟨?_, ?_, ?_, ?_, ?_, ?_⟩
            · rw [hatt, hdel]
              rfl
            · rw [hatt, hadm]
            · rw [hdel]
              simp
            · intro k hk
              rw [hdel] at hk
              simp at hk
            · rw [hres]
              simp
            · rw [hres]
              exact Or.inl ⟨attempt, status, ra, body, v, le_refl attempt, h2, h, hok, hv, rfl⟩
          | none =>
            obtain ⟨hres, hatt, hadm, hdel⟩ :=
              retryLoop_ok_badjson tr rem attempt s status ra body h hok hv
            refine ⟨?_, ?_, ?_, ?_, ?_, ?_⟩
            · rw [hatt, hdel]
              rfl
            · rw [hatt, hadm]
            · rw [hdel]
              simp
            · intro k hk
              rw [hdel] at hk
              simp at hk
            · rw [hres]
              simp
            · rw [hres]
              exact Or.inr (Or.inl ⟨attempt, status, ra, body, le_refl attempt, h2, h, hok, hv, rfl⟩)
        · have hok2 : responseOk status = false := by
            cases hcase : responseOk status
            · rfl
            · exact absurd hcase hok
          have hstop2 : isRetryable status = false ∨ ¬ attempt < MAX_RETRIES := by
            by_cases hr : isRetryable status = true
            · right
              intro hlt
              exact hstop ⟨by rw [h]; exact hr, hlt⟩
            · left
              cases hcase : isRetryable status
              · rfl
              · exact absurd hcase hr
          obtain ⟨hres, hatt, hadm, hdel⟩ :=
            retryLoop_terminal_api tr rem attempt s status ra body h hok2 hstop2
          refine ⟨?_, ?_, ?_, ?_, ?_, ?_⟩
          · rw [hatt, hdel]
            rfl
          · rw [hatt, hadm]
          · rw [hdel]
            simp
          · intro k hk
            rw [hdel] at hk
            simp at hk
          · rw [hres]
            simp
          · rw [hres]
            exact Or.inr (Or.inr (Or.inl
              ⟨attempt, status, ra, body, le_refl attempt, h2, h, hok2, rfl⟩))

/-- Skipping `k` retryable attempts: the settled result and the counters
of the loop related to those of the loop restarted `k` attempts later. -/
lemma retryLoop_skip (tr : Nat → AttemptOutcome) :
    ∀ (k attempt : Nat) (s : LoopState) (rem : Nat),
      rem + attempt = MAX_RETRIES + 1 → attempt + k ≤ MAX_RETRIES →
      (∀ i, i < k → retryableOutcome (tr (attempt + i)) = true) →
      ∃ s2 rem2, rem2 + (attempt + k) = MAX_RETRIES + 1 ∧
        (retryLoop tr rem attempt s).result =
          (retryLoop tr rem2 (attempt + k) s2).result ∧
        (retryLoop tr rem attempt s).attempts =
          (retryLoop tr rem2 (attempt + k) s2).attempts + k ∧
        (retryLoop tr rem attempt s).admissions =
          (retryLoop tr rem2 (attempt + k) s2).admissions + k := by
  intro k
  induction k with
  | zero =>
    intro attempt s rem hrem _ _
    exact ⟨s, rem, by omega, rfl, rfl, rfl⟩
  | succ k ih =>
    intro attempt s rem hrem hbound hro
    obtain ⟨rem2, rfl⟩ : ∃ r, rem = r + 1 := ⟨rem - 1, by omega⟩
    have hlt : attempt < MAX_RETRIES := by omega
    obtain ⟨s2, hres, hatt, hadm, _⟩ :=
      retryLoop_retry_step tr rem2 attempt s hlt (hro 0 (by omega))
    obtain ⟨s3, rem3, h4, hres2, hatt2, hadm2⟩ :=
      ih (attempt + 1) s2 rem2 (by omega) (by omega)
        (fun i hi => by
          have := hro (i + 1) (by omega)
          rwa [show attempt + (i + 1) = attempt + 1 + i by omega] at this)
    have he : attempt + 1 + k = attempt + (k + 1) := by omega
    rw [he] at h4 hres2 hatt2 hadm2
    refine ⟨s3, rem3, h4, ?_, by omega, by omega⟩
    rw [hres, hres2]

/-- Unfolding the credential gate when both credentials are present. -/
lemma call_eq_loop (tok acct : String) (tr : Nat → AttemptOutcome)
    (s : LoopState) (h1 : tok ≠ "") (h2 : acct ≠ "") :
    callFirstPromoterAPI tok acct tr s = retryLoop tr (MAX_RETRIES + 1) 0 s := by
  rw [callFirstPromoterAPI, if_neg]
  intro hc
  rcases hc with hc | hc
  · exact h1 hc
  · exact h2 hc

-- ============================================================================
-- Claim theorems for the request executor
-- ============================================================================

/-- Claim C9: for every transport and state, the call settles within at
most `MAX_RETRIES + 1 = 4` attempts, and the trailing
`Unexpected: retry loop exited without returning or throwing` error after
the loop is unreachable. -/
theorem retry_loop_bounded (tok acct : String) (tr : Nat → AttemptOutcome)
    (s : LoopState) :
    (callFirstPromoterAPI tok acct tr s).attempts ≤ MAX_RETRIES + 1 ∧
    (callFirstPromoterAPI tok acct tr s).result ≠
      .genericError "Unexpected: retry loop exited without returning or throwing" := by
  by_cases hc : tok = "" ∨ acct = ""
  · rw [callFirstPromoterAPI, if_pos hc]
    refine ⟨Nat.zero_le _, ?_⟩
    intro h
    have h2 : credentialsMessage =
        "Unexpected: retry loop exited without returning or throwing" :=
      CallResult.genericError.inj h
    exact absurd h2 (by decide)
  · rw [callFirstPromoterAPI, if_neg hc]
    obtain ⟨m1, m2, m3, m4, m5, m6⟩ :=
      retryLoop_master tr (MAX_RETRIES + 1) 0 s rfl (Nat.zero_le _)
    exact ⟨by omega, m5⟩

/-- Claim C5: with an empty bearer token or account id the call fails
immediately with the configuration error, performing zero attempts, zero
rate-limiter admissions, and leaving the shared state unchanged. -/
theorem credential_gate (tok acct : String) (tr : Nat → AttemptOutcome)
    (s : LoopState) (hc : tok = "" ∨ acct = "") :
    callFirstPromoterAPI tok acct tr s =
      { result := .genericError credentialsMessage,
        attempts := 0, admissions := 0, delays := [], final := s } := by
  rw [callFirstPromoterAPI, if_pos hc]

/-- Witness for `credential_gate`. -/
theorem credential_gate_witness :
    callFirstPromoterAPI "" "acct" (fun _ => .response 200 none ⟨"", none⟩)
      ⟨[], 0⟩ =
      { result := .genericError credentialsMessage,
        attempts := 0, admissions := 0, delays := [], final := ⟨[], 0⟩ } :=
  credential_gate "" "acct" (fun _ => .response 200 none ⟨"", none⟩) ⟨[], 0⟩
    (Or.inl rfl)

/-- Claim C1: when every attempt returns status 503, the call performs
exactly 4 attempts (1 initial + 3 retries) and settles with the server
error classified from the last failing response; there is no 5th
attempt. -/
theorem retry_ceiling_503 (tok acct : String) (tr : Nat → AttemptOutcome)
    (s : LoopState) (ra : Nat → Option String) (bd : Nat → RawBody)
    (h1 : tok ≠ "") (h2 : acct ≠ "")
    (h503 : ∀ k, tr k = .response 503 (ra k) (bd k)) :
    (callFirstPromoterAPI tok acct tr s).attempts = 4 ∧
    (callFirstPromoterAPI tok acct tr s).result =
      .apiError (buildErrorMessage 503 (bd 3)) 503 (parseErrorDetail (bd 3)) := by
  rw [call_eq_loop tok acct tr s h1 h2]
  have hro : ∀ i, i < 3 → retryableOutcome (tr (0 + i)) = true := by
    intro i _
    rw [h503 (0 + i)]
    rfl
  obtain ⟨s2, rem2, hrem, hres, hatt, hadm⟩ :=
    retryLoop_skip tr 3 0 s (MAX_RETRIES + 1) rfl (by rw [MAX_RETRIES]) hro
  rw [Nat.zero_add] at hrem hres hatt
  obtain ⟨r, rfl⟩ : ∃ r, rem2 = r + 1 := ⟨rem2 - 1, by rw [MAX_RETRIES] at hrem; omega⟩
  obtain ⟨t1, t2, _, _⟩ :=
    retryLoop_terminal_api tr r 3 s2 503 (ra 3) (bd 3) (h503 3) rfl
      (Or.inr (by rw [MAX_RETRIES]; omega))
  constructor
  · rw [hatt, t2]
  · rw [hres, t1]

/-- Witness for `retry_ceiling_503`. -/
theorem retry_ceiling_503_witness :
    (callFirstPromoterAPI "t" "a" (fun _ => .response 503 none ⟨"", none⟩)
      ⟨[], 0⟩).attempts = 4 ∧
    (callFirstPromoterAPI "t" "a" (fun _ => .response 503 none ⟨"", none⟩)
      ⟨[], 0⟩).result =
      .apiError (buildErrorMessage 503 ⟨"", none⟩) 503
        (parseErrorDetail ⟨"", none⟩) :=
  retry_ceiling_503 "t" "a" (fun _ => .response 503 none ⟨"", none⟩) ⟨[], 0⟩
    (fun _ => none) (fun _ => ⟨"", none⟩) (by decide) (by decide) (fun _ => rfl)

/-- Claim C3: a first attempt answered by any non-retryable 4xx (any 4xx
other than 429) settles the call after exactly one attempt with the
corresponding classified error, regardless of the remaining retry
budget. -/
theorem non_retryable_short_circuit (tok acct : String)
    (tr : Nat → AttemptOutcome) (s : LoopState) (status : Nat)
    (ra : Option String) (body : RawBody)
    (h1 : tok ≠ "") (h2 : acct ≠ "")
    (hresp : tr 0 = .response status ra body)
    (h400 : 400 ≤ status) (h499 : status ≤ 499) (h429 : status ≠ 429) :
    (callFirstPromoterAPI tok acct tr s).result =
      .apiError (buildErrorMessage status body) status (parseErrorDetail body) ∧
    (callFirstPromoterAPI tok acct tr s).attempts = 1 := by
  rw [call_eq_loop tok acct tr s h1 h2]
  have hok : responseOk status = false := by
    simp only [responseOk, Bool.and_eq_false_iff, decide_eq_false_iff_not]
    omega
  have hr : isRetryable status = false := by
    simp only [isRetryable, Bool.or_eq_false_iff, Bool.and_eq_false_iff,
      beq_eq_false_iff_ne, ne_eq, decide_eq_false_iff_not]
    exact ⟨h429, Or.inl (by omega)⟩
  obtain ⟨t1, t2, _, _⟩ :=
    retryLoop_terminal_api tr MAX_RETRIES 0 s status ra body hresp hok (Or.inl hr)
  exact ⟨t1, t2⟩

/-- Witness for `non_retryable_short_circuit` at status 404. -/
theorem non_retryable_short_circuit_witness :
    (callFirstPromoterAPI "t" "a" (fun _ => .response 404 none ⟨"nf", none⟩)
      ⟨[], 0⟩).result =
      .apiError (buildErrorMessage 404 ⟨"nf", none⟩) 404
        (parseErrorDetail ⟨"nf", none⟩) ∧
    (callFirstPromoterAPI "t" "a" (fun _ => .response 404 none ⟨"nf", none⟩)
      ⟨[], 0⟩).attempts = 1 :=
  non_retryable_short_circuit "t" "a" (fun _ => .response 404 none ⟨"nf", none⟩)
    ⟨[], 0⟩ 404 none ⟨"nf", none⟩ (by decide) (by decide) rfl (by omega)
    (by omega) (by omega)

/-- The delay formula as the claim states it: `1000 × 2^attempt`
milliseconds, except that a failing response carrying a `Retry-After`
header that parses as an integer `n` is retried after `n × 1000`
milliseconds; network-level failures always use the exponential
formula. -/
def claimedDelay (o : AttemptOutcome) (attempt : Nat) : Int :=
  match o with
  | .netError _ => 1000 * 2 ^ attempt
  | .response _ none _ => 1000 * 2 ^ attempt
  | .response _ (some hdr) _ =>
    match parseIntJS hdr with
    | some n => n * 1000
    | none => 1000 * 2 ^ attempt

lemma scheduledDelay_eq_claimedDelay (o : AttemptOutcome) (a : Nat) :
    scheduledDelay o a = claimedDelay o a := by
  cases o with
  | netError msg => rfl
  | response status ra body =>
    cases ra with
    | none => rfl
    | some hdr =>
      by_cases he : hdr = ""
      · subst he
        rfl
      · show getRetryDelay a (some hdr) =
          claimedDelay (AttemptOutcome.response status (some hdr) body) a
        rw [getRetryDelay, if_neg he]
        cases hp : parseIntJS hdr <;> simp [claimedDelay, hp, BASE_DELAY_MS]

/-- Claim C4: with valid credentials the call performs one more attempt
than it slept delays, and the delay scheduled before retrying attempt
`k` is exactly the claimed formula applied to attempt `k` and its
outcome. -/
theorem backoff_delay_schedule (tok acct : String)
    (tr : Nat → AttemptOutcome) (s : LoopState)
    (h1 : tok ≠ "") (h2 : acct ≠ "") :
    (callFirstPromoterAPI tok acct tr s).attempts =
      (callFirstPromoterAPI tok acct tr s).delays.length + 1 ∧
    (callFirstPromoterAPI tok acct tr s).delays.length ≤ MAX_RETRIES ∧
    ∀ k, k < (callFirstPromoterAPI tok acct tr s).delays.length →
      (callFirstPromoterAPI tok acct tr s).delays.getD k 0 =
        claimedDelay (tr k) k := by
  rw [call_eq_loop tok acct tr s h1 h2]
  obtain ⟨m1, m2, m3, m4, m5, m6⟩ :=
    retryLoop_master tr (MAX_RETRIES + 1) 0 s rfl (Nat.zero_le _)
  refine ⟨m1, by omega, ?_⟩
  intro k hk
  rw [m4 k hk, scheduledDelay_eq_claimedDelay, Nat.zero_add]

/-- The transport of the `backoff_delay_schedule` witness: a 429 carrying
`Retry-After: 2`, then success. -/
def retryAfterTransport : Nat → AttemptOutcome := fun k =>
  if k = 0 then .response 429 (some "2") ⟨"", none⟩
  else .response 200 none ⟨"\x7b\x7d", some (.obj [])⟩

/-- Witness for `backoff_delay_schedule`: the 429 with `Retry-After: 2`
is retried after 2000 ms, overriding the exponential 1000 ms. -/
theorem backoff_delay_schedule_witness :
    (callFirstPromoterAPI "t" "a" retryAfterTransport ⟨[], 0⟩).delays.getD 0 0 =
      2000 := by
  have h := backoff_delay_schedule "t" "a" retryAfterTransport ⟨[], 0⟩
    (by decide) (by decide)
  have hk : 0 < (callFirstPromoterAPI "t" "a" retryAfterTransport
      ⟨[], 0⟩).delays.length := by decide
  rw [h.2.2 0 hk]
  rfl

/-- Claim C7 (counterexample): not every terminal failure of the call is
a classified error — a 2xx response whose body is not valid JSON makes
the call reject with the raw JSON parse exception (`jsonParseError`),
which is neither a success, nor a `FirstPromoterAPIError`, nor a plain
wrapped message.  Shown at the concrete transport always answering
status 200 with the unparseable body `"not json"`. -/
theorem classified_error_propagation_cex :
    ¬ (∀ (tok acct : String) (tr : Nat → AttemptOutcome) (s : LoopState),
        tok ≠ "" → acct ≠ "" →
        (∃ v, (callFirstPromoterAPI tok acct tr s).result = .success v) ∨
        (∃ m sc d,
          (callFirstPromoterAPI tok acct tr s).result = .apiError m sc d) ∨
        (∃ m, (callFirstPromoterAPI tok acct tr s).result = .genericError m)) := by
  intro h
  have h2 := h "t" "a" (fun _ => .response 200 none ⟨"not json", none⟩) ⟨[], 0⟩
    (by decide) (by decide)
  have hres : (callFirstPromoterAPI "t" "a"
      (fun _ => .response 200 none ⟨"not json", none⟩) ⟨[], 0⟩).result =
      .jsonParseError := rfl
  rw [hres] at h2
  rcases h2 with ⟨v, hv⟩ | ⟨m, sc, d, hv⟩ | ⟨m, hv⟩ <;>
    exact CallResult.noConfusion hv

/-- Claim C7 (amended): every settled result of a call with valid
credentials has the classified shape — the parsed JSON of a reached 2xx
response, the raw parse rejection of a reached 2xx response with invalid
JSON body, a classified error carrying the original status and the
table message of a reached non-2xx response, or the wrapped transport
message (without status) when the final attempt fails at the network
level.  The table rows of `buildErrorMessage` are spelled out as
stated. -/
theorem classified_error_propagation_amended (tok acct : String)
    (tr : Nat → AttemptOutcome) (s : LoopState)
    (h1 : tok ≠ "") (h2 : acct ≠ "") :
    resultShape tr 0 (callFirstPromoterAPI tok acct tr s).result ∧
    (∀ b, buildErrorMessage 401 b =
      "Authentication failed — check your FP_BEARER_TOKEN and FP_ACCOUNT_ID") ∧
    (∀ b, buildErrorMessage 403 b =
      "Access denied — your API token does not have permission" ++ detailSuffix b) ∧
    (∀ b, buildErrorMessage 404 b =
      "Not found — the requested resource does not exist" ++ detailSuffix b) ∧
    (∀ b, buildErrorMessage 422 b =
      "Validation error — the request data is invalid" ++ detailSuffix b) ∧
    (∀ b, buildErrorMessage 429 b =
      "Rate limit exceeded — too many requests to FirstPromoter API") ∧
    (∀ st b, 500 ≤ st → st ≤ 504 → buildErrorMessage st b =
      "FirstPromoter server error (" ++ toString st ++
        ") — service may be temporarily unavailable" ++ detailSuffix b) ∧
    (∀ st b, st ∉ ([401, 403, 404, 422, 429] : List Nat) →
      ¬ (500 ≤ st ∧ st ≤ 504) → buildErrorMessage st b =
      "FirstPromoter API error (" ++ toString st ++ ")" ++ detailSuffix b) := by
  refine ⟨?_, fun b => rfl, fun b => rfl, fun b => rfl, fun b => rfl,
    fun b => rfl, ?_, ?_⟩
  · rw [call_eq_loop tok acct tr s h1 h2]
    exact (retryLoop_master tr (MAX_RETRIES + 1) 0 s rfl (Nat.zero_le _)).2.2.2.2.2
  · intro st b h5 h6
    rw [buildErrorMessage, if_neg (by omega), if_neg (by omega),
      if_neg (by omega), if_neg (by omega), if_neg (by omega),
      if_pos (by omega)]
  · intro st b hmem hsrv
    simp only [List.mem_cons, List.not_mem_nil, or_false] at hmem
    push_neg at hmem
    obtain ⟨n1, n2, n3, n4, n5⟩ := hmem
    rw [buildErrorMessage, if_neg n1, if_neg n2, if_neg n3, if_neg n4,
      if_neg n5, if_neg hsrv]

/-- Witness for `classified_error_propagation_amended`. -/
theorem classified_error_propagation_witness :
    resultShape (fun _ => .response 404 none ⟨"x", none⟩) 0
      (callFirstPromoterAPI "t" "a" (fun _ => .response 404 none ⟨"x", none⟩)
        ⟨[], 0⟩).result :=
  (classified_error_propagation_amended "t" "a"
    (fun _ => .response 404 none ⟨"x", none⟩) ⟨[], 0⟩ (by decide) (by decide)).1

/-- Claim C8: a reached 2xx response (every earlier attempt having been a
retryable failure) makes the call return the parsed JSON body and stop,
having performed, and consumed one rate-limiter admission for, exactly
`k + 1` attempts. -/
theorem success_passthrough (tok acct : String) (tr : Nat → AttemptOutcome)
    (s : LoopState) (k status : Nat) (ra : Option String) (body : RawBody)
    (v : Json) (h1 : tok ≠ "") (h2 : acct ≠ "") (hk : k ≤ MAX_RETRIES)
    (hprev : ∀ i, i < k → retryableOutcome (tr i) = true)
    (hresp : tr k = .response status ra body)
    (hok : responseOk status = true) (hv : body.parsed = some v) :
    (callFirstPromoterAPI tok acct tr s).result = .success v ∧
    (callFirstPromoterAPI tok acct tr s).attempts = k + 1 ∧
    (callFirstPromoterAPI tok acct tr s).admissions = k + 1 := by
  rw [call_eq_loop tok acct tr s h1 h2]
  obtain ⟨s2, rem2, hrem, hres, hatt, hadm⟩ :=
    retryLoop_skip tr k 0 s (MAX_RETRIES + 1) rfl (by omega)
      (fun i hi => by rw [Nat.zero_add]; exact hprev i hi)
  rw [Nat.zero_add] at hrem hres hatt hadm
  obtain ⟨r, rfl⟩ : ∃ r, rem2 = r + 1 := ⟨rem2 - 1, by omega⟩
  obtain ⟨t1, t2, t3, _⟩ :=
    retryLoop_ok_success tr r k s2 status ra body v hresp hok hv
  exact ⟨by rw [hres, t1], by rw [hatt, t2]; omega, by rw [hadm, t3]; omega⟩

/-- The transport of the `success_passthrough` witness: 500, 500, then a
200 with JSON body. -/
def fiveHundredTwiceTransport : Nat → AttemptOutcome := fun k =>
  if k ≤ 1 then .response 500 none ⟨"err", none⟩
  else .response 200 none ⟨"\x7b\x7d", some (.obj [])⟩

/-- Witness for `success_passthrough`: statuses 500, 500, 200 on three
successive attempts return the parsed 200 body after exactly 3 attempts
and 3 admissions. -/
theorem success_passthrough_witness :
    (callFirstPromoterAPI "t" "a" fiveHundredTwiceTransport ⟨[], 0⟩).result =
      .success (.obj []) ∧
    (callFirstPromoterAPI "t" "a" fiveHundredTwiceTransport ⟨[], 0⟩).attempts = 3 ∧
    (callFirstPromoterAPI "t" "a" fiveHundredTwiceTransport ⟨[], 0⟩).admissions = 3 :=
  success_passthrough "t" "a" fiveHundredTwiceTransport ⟨[], 0⟩ 2 200 none
    ⟨"\x7b\x7d", some (.obj [])⟩ (.obj []) (by decide) (by decide) (by decide)
    (by decide) rfl rfl rfl

/-- Claim C10: a reached 2xx response whose body is not valid JSON makes
the call reject with the raw JSON parse exception itself — not a
`FirstPromoterAPIError` — with no further attempt and no error
classification applied. -/
theorem ok_status_invalid_json_raw (tok acct : String)
    (tr : Nat → AttemptOutcome) (s : LoopState) (k status : Nat)
    (ra : Option String) (body : RawBody)
    (h1 : tok ≠ "") (h2 : acct ≠ "") (hk : k ≤ MAX_RETRIES)
    (hprev : ∀ i, i < k → retryableOutcome (tr i) = true)
    (hresp : tr k = .response status ra body)
    (hok : responseOk status = true) (hv : body.parsed = none) :
    (callFirstPromoterAPI tok acct tr s).result = .jsonParseError ∧
    (callFirstPromoterAPI tok acct tr s).attempts = k + 1 ∧
    (∀ m sc d, (callFirstPromoterAPI tok acct tr s).result ≠ .apiError m sc d) := by
  rw [call_eq_loop tok acct tr s h1 h2]
  obtain ⟨s2, rem2, hrem, hres, hatt, hadm⟩ :=
    retryLoop_skip tr k 0 s (MAX_RETRIES + 1) rfl (by omega)
      (fun i hi => by rw [Nat.zero_add]; exact hprev i hi)
  rw [Nat.zero_add] at hrem hres hatt
  obtain ⟨r, rfl⟩ : ∃ r, rem2 = r + 1 := ⟨rem2 - 1, by omega⟩
  obtain ⟨t1, t2, _, _⟩ :=
    retryLoop_ok_badjson tr r k s2 status ra body hresp hok hv
  refine ⟨by rw [hres, t1], by rw [hatt, t2]; omega, ?_⟩
  intro m sc d hc
  rw [hres, t1] at hc
  exact CallResult.noConfusion hc

/-- Witness for `ok_status_invalid_json_raw`. -/
theorem ok_status_invalid_json_raw_witness :
    (callFirstPromoterAPI "t" "a" (fun _ => .response 200 none ⟨"oops", none⟩)
      ⟨[], 0⟩).result = .jsonParseError ∧
    (callFirstPromoterAPI "t" "a" (fun _ => .response 200 none ⟨"oops", none⟩)
      ⟨[], 0⟩).attempts = 0 + 1 ∧
    (∀ m sc d, (callFirstPromoterAPI "t" "a"
      (fun _ => .response 200 none ⟨"oops", none⟩) ⟨[], 0⟩).result ≠
        .apiError m sc d) :=
  ok_status_invalid_json_raw "t" "a"
    (fun _ => .response 200 none ⟨"oops", none⟩) ⟨[], 0⟩ 0 200 none
    ⟨"oops", none⟩ (by decide) (by decide) (by decide)
    (fun i hi => absurd hi (Nat.not_lt_zero i)) rfl rfl rfl
